import Mathlib

/-!
Verification of the real-time voice-activity segmentation core of the
AI-Meeting-Assistant repository (`Audio.py`, `pipeline.py`).

The audio samples that the code handles as IEEE float32 are modelled as
rationals (`ℚ`); timestamps (`time_info.inputBufferAdcTime`) are rationals as
well.  The RMS comparison `np.sqrt(np.mean(mono**2)) > 0.02` is embedded as the
equivalent decidable comparison of the mean square against `0.02 ^ 2`; the
theorem `voiceDetected_iff_rms` proves the two forms equivalent over the reals,
so every definition stays executable.
-/

namespace MeetingAssistant

/-! ### Handoff channel (`queue.Queue`) -/

/-- A Python `queue.Queue` holding completed utterances (each a flat list of
samples).  `maxsize = 0` means unbounded, exactly as in Python. -/
structure PyQueue where
  maxsize : Nat
  items : List (List ℚ)
deriving DecidableEq

/-- `self.audio_queue = queue.Queue()` in `AudioCapture.__init__` (Audio.py:19):
no `maxsize` argument, hence an unbounded queue. -/
def audioQueueInit : PyQueue := ⟨0, []⟩

/-- Python `put_nowait` raises `queue.Full` iff the queue is bounded and at
capacity. -/
def PyQueue.full (q : PyQueue) : Bool :=
  decide (0 < q.maxsize ∧ q.maxsize ≤ q.items.length)

/-- The callback's enqueue (Audio.py:144-152): `put_nowait(combined)`; on
`queue.Full`, `get_nowait()` then `put_nowait(combined)` again (drop the
oldest), with any error swallowed. -/
def putNowaitOrReplace (q : PyQueue) (u : List ℚ) : PyQueue :=
  if q.full then { q with items := q.items.tail ++ [u] }
  else { q with items := q.items ++ [u] }

/-- The `stop()` enqueue (Audio.py:218-221): `put_nowait(combined)` with a bare
`except: pass` — on a full queue the flushed utterance is simply dropped. -/
def putNowaitOrDrop (q : PyQueue) (u : List ℚ) : PyQueue :=
  if q.full then q
  else { q with items := q.items ++ [u] }

/-! ### Callback input blocks and the energy classifier -/

/-- One hardware callback invocation: `indata` as a list of frames (each frame
one sample per channel), the channel count (`indata.shape[1]`), and
`time_info.inputBufferAdcTime`. -/
structure CallbackInput where
  data : List (List ℚ)
  nChannels : Nat
  time : ℚ
deriving DecidableEq

/-- `indata.size`: the total number of scalar samples in the block. -/
def CallbackInput.size (inp : CallbackInput) : Nat :=
  (inp.data.map List.length).sum

/-- Audio.py:94-97: `indata.mean(axis=1)` when the block carries more than one
channel, otherwise `indata.flatten()`. -/
def toMono (inp : CallbackInput) : List ℚ :=
  if 1 < inp.nChannels then
    inp.data.map (fun frame => frame.sum / (inp.nChannels : ℚ))
  else
    inp.data.flatten

/-- `np.mean(audio_mono ** 2)`: the mean of the squared samples. -/
def meanSq (mono : List ℚ) : ℚ :=
  (mono.map (fun x => x ^ 2)).sum / (mono.length : ℚ)

/-- `VOICE_THRESHOLD = 0.02` (Audio.py:104). -/
def VOICE_THRESHOLD : ℚ := 1 / 50

/-- Audio.py:100,106: `rms = np.sqrt(np.mean(audio_mono**2))` and the test
`rms > VOICE_THRESHOLD`.  Since the mean square is non-negative, comparing the
square root against `0.02` is equivalent to comparing the mean square against
`0.02 ^ 2`; the executable definition uses the latter form and the theorem
`voiceDetected_iff_rms` below proves it equal to the source's square-root
form. -/
def voiceDetected (mono : List ℚ) : Bool :=
  decide (VOICE_THRESHOLD ^ 2 < meanSq mono)

/-! ### Segmenter state machine -/

/-- The mutable segmentation state of `AudioCapture` (Audio.py:27-31).
`audioBuffer` holds the mono blocks accumulated for the in-progress
utterance. -/
structure SegState where
  isRecording : Bool
  audioBuffer : List (List ℚ)
  bufferStartTime : Option ℚ
  lastVoiceTime : Option ℚ
  silenceStartTime : Option ℚ
deriving DecidableEq

/-- The state set up by `AudioCapture.__init__`. -/
def initState : SegState :=
  { isRecording := false, audioBuffer := [], bufferStartTime := none,
    lastVoiceTime := none, silenceStartTime := none }

/-- One invocation of the `callback` closure (Audio.py:86-162), restricted to
its effect on the segmentation state.  The second component is `some u` exactly
when the code executes `audio_queue.put_nowait(combined_audio)` with utterance
`u` (the emission inside the `buffer_duration > 0.3` guard). -/
def callbackStep (sampleRate : ℚ) (s : SegState) (inp : CallbackInput) :
    SegState × Option (List ℚ) :=
  if inp.size = 0 then (s, none)
  else
    let audioMono := toMono inp
    let currentTime := inp.time
    if voiceDetected audioMono then
      let s1 : SegState :=
        if s.isRecording then s
        else
          { isRecording := true, audioBuffer := [],
            bufferStartTime := some currentTime,
            lastVoiceTime := some currentTime, silenceStartTime := none }
      ({ s1 with lastVoiceTime := some currentTime, silenceStartTime := none,
                 audioBuffer := s1.audioBuffer ++ [audioMono] }, none)
    else
      if s.isRecording then
        let silenceStart := s.silenceStartTime.getD currentTime
        let silenceDuration := currentTime - silenceStart
        if 0 < s.audioBuffer.length ∧ 1 < silenceDuration then
          let combined := s.audioBuffer.flatten
          let bufferDuration := (combined.length : ℚ) / sampleRate
          ({ s with isRecording := false, audioBuffer := [],
                    silenceStartTime := none },
           if 3 / 10 < bufferDuration then some combined else none)
        else
          ({ s with silenceStartTime := some silenceStart,
                    audioBuffer := s.audioBuffer ++ [audioMono] }, none)
      else (s, none)

/-- The callback including the enqueue of an emitted utterance into the
handoff queue. -/
def callbackFull (sampleRate : ℚ) (sq : SegState × PyQueue)
    (inp : CallbackInput) : SegState × PyQueue :=
  match callbackStep sampleRate sq.1 inp with
  | (s2, some u) => (s2, putNowaitOrReplace sq.2 u)
  | (s2, none) => (s2, sq.2)

/-- Processing a whole sequence of callback blocks in arrival order. -/
def runCapture (sampleRate : ℚ) (sq : SegState × PyQueue)
    (inps : List CallbackInput) : SegState × PyQueue :=
  inps.foldl (callbackFull sampleRate) sq

/-! ### Capture session and `stop()` -/

/-- The parts of `AudioCapture` touched by `stop()`. -/
structure Capture where
  isCapturing : Bool
  seg : SegState
  audioQueue : PyQueue
deriving DecidableEq

/-- `AudioCapture.stop` (Audio.py:210-232): set `is_capturing = False`; if
recording with a non-empty buffer, concatenate it and, when the result is
non-empty, `put_nowait` it (errors swallowed).  The stream/task teardown has no
effect on the modelled state.  Note the method resets neither `is_recording`
nor `audio_buffer`. -/
def stopCapture (c : Capture) : Capture :=
  let c1 : Capture := { c with isCapturing := false }
  if c1.seg.isRecording = true ∧ 0 < c1.seg.audioBuffer.length then
    let combined := c1.seg.audioBuffer.flatten
    if 0 < combined.length then
      { c1 with audioQueue := putNowaitOrDrop c1.audioQueue combined }
    else c1
  else c1

/-! ### Device resolution (`AudioCapture.find_audio_device`) -/

/-- One entry of `sd.query_devices()`: the fields the resolver reads. -/
structure DeviceInfo where
  name : List Char
  maxInputChannels : Nat
deriving DecidableEq

/-- The monitor/loopback name patterns (Audio.py:54). -/
def monitorPatterns : List (List Char) :=
  ["monitor".toList, "loopback".toList, "virtual".toList, "alsa".toList]

/-- Python `p in name`: substring containment on character lists. -/
def occursIn (p s : List Char) : Bool :=
  (List.range (s.length + 1)).any (fun i => p.isPrefixOf (s.drop i))

/-- The per-device test of Audio.py:52-55: any pattern occurs in the lowercased
name and the device has at least one input channel. -/
def isMonitorDevice (d : DeviceInfo) : Bool :=
  monitorPatterns.any (fun p => occursIn p (d.name.map Char.toLower))
    && decide (0 < d.maxInputChannels)

/-- The `for i, dev in enumerate(devices)` scan of Audio.py:51-57, searching
from index `i`. -/
def findMonitorFrom : Nat → List DeviceInfo → Option Nat
  | _, [] => none
  | i, d :: rest =>
      if isMonitorDevice d then some i else findMonitorFrom (i + 1) rest

/-- The fallback scan of Audio.py:66-69: the first device with an input
channel. -/
def firstInputFrom : Nat → List DeviceInfo → Option Nat
  | _, [] => none
  | i, d :: rest =>
      if 0 < d.maxInputChannels then some i else firstInputFrom (i + 1) rest

/-- The requested-id check of Audio.py:39-48: a requested id is honoured iff it
is in range (`0 <= device_id < len(devices)`) and the device has at least one
input channel; otherwise the code falls through with a warning. -/
def resolveRequested (deviceId : Option ℤ) (devices : List DeviceInfo) :
    Option Nat :=
  match deviceId with
  | none => none
  | some id =>
      if 0 ≤ id ∧ id < (devices.length : ℤ) then
        match devices.get? id.toNat with
        | some dev => if 0 < dev.maxInputChannels then some id.toNat else none
        | none => none
      else none

/-- `AudioCapture.find_audio_device` (Audio.py:33-75).  The device table and
the OS default input index (`sd.default.device[1]`) are inputs.  When the
default index is out of range, the source raises inside
`devices[default]['name']` and the surrounding `except` returns `None`; the
in-range test models that. -/
def findAudioDevice (deviceId : Option ℤ) (defaultInput : Option Nat)
    (devices : List DeviceInfo) : Option Nat :=
  match resolveRequested deviceId devices with
  | some i => some i
  | none =>
      match findMonitorFrom 0 devices with
      | some i => some i
      | none =>
          match defaultInput with
          | some d => if d < devices.length then some d else none
          | none => firstInputFrom 0 devices

/-- Resolver transcribed from the spec's words (§4.1), for comparison with the
source's `find_audio_device`: (1) an in-range requested id with an input
channel wins, an invalid or input-less one falls through non-fatally; (2) the
first monitor/loopback/virtual/alsa-named device with input; (3) the OS default
input device if one exists; (4) the first device with input; (5) otherwise no
device is found. -/
def specResolve (deviceId : Option ℤ) (defaultInput : Option Nat)
    (devices : List DeviceInfo) : Option Nat :=
  match resolveRequested deviceId devices with
  | some i => some i
  | none =>
      match findMonitorFrom 0 devices with
      | some i => some i
      | none =>
          match defaultInput with
          | some d => some d
          | none => firstInputFrom 0 devices

/-! ### Consumer-side normalization (`pipeline.py`) -/

/-- `np.abs(audio_data).max()` for a non-empty array, written as a fold of
`max` over the absolute values starting from `0` (every absolute value is
non-negative, so the extra `0` does not change the maximum). -/
def peak (l : List ℚ) : ℚ :=
  (l.map (fun x => |x|)).foldl max 0

/-- `ConferenceAssistant.process_audio_chunk_immediate` (pipeline.py:141-157):
drop the chunk when not running or empty; otherwise peak-normalize (divide by
the maximum absolute sample when it is positive) and hand the result to the
transcription collaborator.  `some u` is the array passed on to
`_transcribe_and_display_immediate`; `none` means the early return.  The
float32 dtype cast is the identity in this model. -/
def processAudioChunkImmediate (isRunning : Bool) (audioData : List ℚ) :
    Option (List ℚ) :=
  if isRunning = false ∨ audioData.length = 0 then none
  else
    let maxVal := peak audioData
    if 0 < maxVal then some (audioData.map (fun x => x / maxVal))
    else some audioData

/-! ### Concrete inputs used by the counterexamples and witnesses -/

/-- A single-sample speech block of RMS `0.05` at time `0`; at a sample rate of
5 Hz one sample lasts 200 ms. -/
def speechBlockB : CallbackInput := { data := [[1/20]], nChannels := 1, time := 0 }

/-- A single-sample silence block (RMS `0`) at time `t`. -/
def silenceBlockB (t : ℚ) : CallbackInput :=
  { data := [[0]], nChannels := 1, time := t }

/-- Scenario B of the spec, instantiated at a 5 Hz sample rate: one 200 ms
speech block of RMS `0.05` followed by contiguous 200 ms silence blocks. -/
def scenarioBInput : List CallbackInput :=
  speechBlockB :: [1/5, 2/5, 3/5, 4/5, 1, 6/5, 7/5].map silenceBlockB

/-- An arbitrarily long tail of further silence blocks. -/
def silenceTail (n : Nat) : List CallbackInput :=
  (List.range n).map (fun j => silenceBlockB (8/5 + (j : ℚ) / 5))

/-- The segmenter invariant of the spec's data model: the buffer is non-empty
only while recording, and `silence_start_time` is set only while recording. -/
def SegInv (s : SegState) : Prop :=
  (s.isRecording = false → s.audioBuffer = []) ∧
  (s.silenceStartTime ≠ none → s.isRecording = true)

/-! ### Helper lemmas -/

theorem meanSq_nonneg (mono : List ℚ) : 0 ≤ meanSq mono := by
  unfold meanSq
  apply div_nonneg
  · apply List.sum_nonneg
    intro x hx
    obtain ⟨y, _, rfl⟩ := List.mem_map.mp hx
    exact sq_nonneg y
  · exact Nat.cast_nonneg _

theorem voiceDetected_iff (mono : List ℚ) :
    voiceDetected mono = true ↔ (1 : ℚ) / 2500 < meanSq mono := by
  unfold voiceDetected VOICE_THRESHOLD
  rw [decide_eq_true_eq]
  norm_num

/-- The executable classifier agrees with the source's square-root form:
`rms > 0.02` iff the mean square exceeds `0.02 ^ 2`. -/
theorem voiceDetected_iff_rms (mono : List ℚ) :
    voiceDetected mono = true ↔
      (0.02 : ℝ) < Real.sqrt ((meanSq mono : ℚ) : ℝ) := by
  rw [voiceDetected_iff]
  rw [Real.lt_sqrt (by norm_num : (0 : ℝ) ≤ 0.02)]
  constructor
  · intro h
    have : ((1 : ℚ) / 2500 : ℝ) < ((meanSq mono : ℚ) : ℝ) := by exact_mod_cast h
    calc (0.02 : ℝ) ^ 2 = ((1 : ℚ) / 2500 : ℝ) := by push_cast; norm_num
    _ < _ := this
  · intro h
    have h2 : ((1 : ℚ) / 2500 : ℝ) < ((meanSq mono : ℚ) : ℝ) := by
      calc ((1 : ℚ) / 2500 : ℝ) = (0.02 : ℝ) ^ 2 := by push_cast; norm_num
      _ < _ := h
    exact_mod_cast h2

theorem callbackStep_size_zero (sampleRate : ℚ) (s : SegState)
    (inp : CallbackInput) (h : inp.size = 0) :
    callbackStep sampleRate s inp = (s, none) := by
  unfold callbackStep
  rw [if_pos h]

theorem callbackStep_idle_silence (sampleRate : ℚ) (s : SegState)
    (inp : CallbackInput) (hv : voiceDetected (toMono inp) = false)
    (hr : s.isRecording = false) :
    callbackStep sampleRate s inp = (s, none) := by
  unfold callbackStep
  by_cases hsz : inp.size = 0
  · rw [if_pos hsz]
  · rw [if_neg hsz]
    simp only [hv, hr, Bool.false_eq_true, if_false]

theorem runCapture_silence_idle (sampleRate : ℚ) (l : List CallbackInput) :
    ∀ sq : SegState × PyQueue, sq.1.isRecording = false →
      (∀ inp ∈ l, voiceDetected (toMono inp) = false) →
      runCapture sampleRate sq l = sq := by
  induction l with
  | nil => intro sq _ _; rfl
  | cons a l ih =>
      intro sq hr hl
      have hstep : callbackFull sampleRate sq a = sq := by
        unfold callbackFull
        rw [callbackStep_idle_silence sampleRate sq.1 a (hl a (List.mem_cons_self a l)) hr]
      show List.foldl (callbackFull sampleRate) (callbackFull sampleRate sq a) l = sq
      rw [hstep]
      exact ih sq hr (fun inp hinp => hl inp (List.mem_cons_of_mem a hinp))

theorem le_foldl_max (l : List ℚ) : ∀ a : ℚ, a ≤ l.foldl max a := by
  induction l with
  | nil => intro a; exact le_refl a
  | cons x l ih =>
      intro a
      calc a ≤ max a x := le_max_left a x
      _ ≤ (x :: l).foldl max a := ih (max a x)

theorem mem_le_foldl_max (l : List ℚ) :
    ∀ (a x : ℚ), x ∈ l → x ≤ l.foldl max a := by
  induction l with
  | nil => intro a x hx; cases hx
  | cons y l ih =>
      intro a x hx
      rcases List.mem_cons.mp hx with rfl | hx
      · calc x ≤ max a x := le_max_right a x
        _ ≤ (x :: l).foldl max a := le_foldl_max l (max a x)
      · exact ih (max a y) x hx

theorem foldl_max_le (l : List ℚ) :
    ∀ (a b : ℚ), a ≤ b → (∀ x ∈ l, x ≤ b) → l.foldl max a ≤ b := by
  induction l with
  | nil => intro a b hab _; exact hab
  | cons y l ih =>
      intro a b hab hl
      exact ih (max a y) b (max_le hab (hl y (List.mem_cons_self y l)))
        (fun x hx => hl x (List.mem_cons_of_mem y hx))

theorem peak_nonneg (l : List ℚ) : 0 ≤ peak l :=
  le_foldl_max (l.map (fun x => |x|)) 0

theorem abs_le_peak (l : List ℚ) (x : ℚ) (hx : x ∈ l) : |x| ≤ peak l :=
  mem_le_foldl_max (l.map (fun x => |x|)) 0 |x|
    (List.mem_map.mpr ⟨x, hx, rfl⟩)

theorem peak_pos (l : List ℚ) (x : ℚ) (hx : x ∈ l) (hx0 : x ≠ 0) :
    0 < peak l :=
  lt_of_lt_of_le (abs_pos.mpr hx0) (abs_le_peak l x hx)

theorem peak_eq_zero_of_all_zero (l : List ℚ) (h : ∀ x ∈ l, x = 0) :
    peak l = 0 := by
  apply le_antisymm _ (peak_nonneg l)
  apply foldl_max_le
  · exact le_refl 0
  · intro x hx
    obtain ⟨y, hy, rfl⟩ := List.mem_map.mp hx
    rw [h y hy]
    simp

theorem foldl_max_div (c : ℚ) (hc : 0 < c) (l : List ℚ) :
    ∀ a : ℚ, (l.map (fun x => x / c)).foldl max (a / c) = l.foldl max a / c := by
  induction l with
  | nil => intro a; rfl
  | cons x l ih =>
      intro a
      show (l.map (fun x => x / c)).foldl max (max (a / c) (x / c))
          = (l.foldl max (max a x)) / c
      rw [max_div_div_right hc.le a x]
      exact ih (max a x)

theorem peak_map_div (l : List ℚ) (c : ℚ) (hc : 0 < c) :
    peak (l.map (fun x => x / c)) = peak l / c := by
  unfold peak
  rw [List.map_map]
  have heq : ((fun x => |x|) ∘ fun x => x / c) = fun x => |x| / c := by
    funext x
    simp [abs_div, abs_of_pos hc]
  rw [heq]
  have h2 : (fun x => |x| / c) = (fun x => x / c) ∘ fun x => |x| := rfl
  rw [h2, ← List.map_map]
  have h0 : (0 : ℚ) = 0 / c := by rw [zero_div]
  rw [h0, foldl_max_div c hc (l.map (fun x => |x|)) 0, zero_div]

theorem putNowaitOrReplace_unbounded (q : PyQueue) (hq : q.maxsize = 0)
    (u : List ℚ) :
    putNowaitOrReplace q u = { q with items := q.items ++ [u] } := by
  unfold putNowaitOrReplace
  rw [if_neg]
  simp [PyQueue.full, hq]

theorem stopCapture_flush (c : Capture) (hrec : c.seg.isRecording = true)
    (hlen : 0 < c.seg.audioBuffer.length)
    (hflen : 0 < c.seg.audioBuffer.flatten.length)
    (hmax : c.audioQueue.maxsize = 0) :
    stopCapture c
      = ⟨false, c.seg,
         ⟨0, c.audioQueue.items ++ [c.seg.audioBuffer.flatten]⟩⟩ := by
  obtain ⟨b, seg, q⟩ := c
  obtain ⟨qm, qi⟩ := q
  simp only at hrec hlen hflen hmax
  subst hmax
  simp only [stopCapture, putNowaitOrDrop, PyQueue.full]
  rw [if_pos ⟨hrec, hlen⟩, if_pos hflen, if_neg]
  simp

theorem stopCapture_noFlush (c : Capture)
    (h : c.seg.isRecording = false ∨ c.seg.audioBuffer = []) :
    stopCapture c = { c with isCapturing := false } := by
  obtain ⟨b, seg, q⟩ := c
  simp only at h
  simp only [stopCapture]
  rw [if_neg]
  rcases h with h | h
  · intro hc
    rw [h] at hc
    exact Bool.false_ne_true hc.1
  · intro hc
    rw [h] at hc
    exact absurd hc.2 (by simp)

/-! ### Claim C1 — handoff channel overflow policy -/

/-- C1 counterexample: pushing two utterances into the freshly constructed
handoff queue before any pop leaves BOTH in the channel — `queue.Queue()` is
unbounded, so the drop-oldest replacement branch never runs and the channel
does not hold exactly the second-pushed item. -/
theorem claim1_counterexample :
    (putNowaitOrReplace (putNowaitOrReplace audioQueueInit [1]) [2]).items
        = [[1], [2]] ∧
    (putNowaitOrReplace (putNowaitOrReplace audioQueueInit [1]) [2]).items
        ≠ [[2]] := by
  constructor
  · simp [putNowaitOrReplace, PyQueue.full, audioQueueInit]
  · simp [putNowaitOrReplace, PyQueue.full, audioQueueInit]

/-- C1 amended: every push succeeds without blocking (it simply appends), but
because the channel is created as an unbounded `queue.Queue()` nothing is ever
evicted: two pushes before any pop leave the channel holding both utterances in
FIFO order, the first one still recoverable.  The drop-oldest replacement code
exists but only fires on `queue.Full`, which an unbounded queue never
raises. -/
theorem claim1_amended (q : PyQueue) (u1 u2 : List ℚ) (h : q.maxsize = 0) :
    (putNowaitOrReplace q u1).items = q.items ++ [u1] ∧
    (putNowaitOrReplace (putNowaitOrReplace q u1) u2).items
      = q.items ++ [u1, u2] := by
  rw [putNowaitOrReplace_unbounded q h u1,
      putNowaitOrReplace_unbounded { q with items := q.items ++ [u1] } h u2]
  constructor
  · rfl
  · simp

/-- C1 amended, witnessed on the program's actual initial queue. -/
theorem claim1_amended_witness :
    (putNowaitOrReplace audioQueueInit [1]).items
        = audioQueueInit.items ++ [[1]] ∧
    (putNowaitOrReplace (putNowaitOrReplace audioQueueInit [1]) [2]).items
        = audioQueueInit.items ++ [[1], [2]] :=
  claim1_amended audioQueueInit [1] [2] rfl

/-! ### Claim C3 — `stop()` idempotence -/

/-- A capture session stopped mid-recording with one buffered block. -/
def captureC3 : Capture :=
  { isCapturing := true,
    seg := { isRecording := true, audioBuffer := [[1]],
             bufferStartTime := some 0, lastVoiceTime := some 0,
             silenceStartTime := none },
    audioQueue := audioQueueInit }

/-- C3 counterexample: `stop()` never resets `is_recording` or `audio_buffer`,
so a second `stop()` while the state says Recording flushes the very same
buffer again — two flushes, not at most one. -/
theorem claim3_counterexample :
    (stopCapture captureC3).audioQueue.items = [[1]] ∧
    (stopCapture (stopCapture captureC3)).audioQueue.items = [[1], [1]] := by
  have h1 := stopCapture_flush captureC3 rfl (by simp [captureC3])
    (by simp [captureC3]) rfl
  have h2 := stopCapture_flush (stopCapture captureC3)
    (by rw [h1]; rfl) (by rw [h1]; simp [captureC3])
    (by rw [h1]; simp [captureC3]) (by rw [h1])
  constructor
  · rw [h1]; rfl
  · rw [h2, h1]; rfl

/-- C3 amended: `stop()` is idempotent only outside the flush case — when not
recording or with an empty buffer, a second call changes nothing.  When called
while Recording with a non-empty buffer, every additional call flushes the same
flattened buffer again (the method resets neither `is_recording` nor
`audio_buffer`), so two calls enqueue the utterance twice; both calls still
complete without error. -/
theorem claim3_amended (c : Capture) :
    (c.seg.isRecording = false ∨ c.seg.audioBuffer = [] →
        stopCapture (stopCapture c) = stopCapture c) ∧
    (c.audioQueue.maxsize = 0 → c.seg.isRecording = true →
      c.seg.audioBuffer ≠ [] → c.seg.audioBuffer.flatten ≠ [] →
      (stopCapture (stopCapture c)).audioQueue.items
        = c.audioQueue.items
            ++ [c.seg.audioBuffer.flatten, c.seg.audioBuffer.flatten]) := by
  constructor
  · intro h
    rw [stopCapture_noFlush c h]
    rw [stopCapture_noFlush _ (by simpa using h)]
  · intro hmax hrec hbuf hflat
    have hlen : 0 < c.seg.audioBuffer.length := List.length_pos.mpr hbuf
    have hflen : 0 < c.seg.audioBuffer.flatten.length := List.length_pos.mpr hflat
    have h1 := stopCapture_flush c hrec hlen hflen hmax
    have h2 := stopCapture_flush (stopCapture c)
      (by rw [h1]; exact hrec) (by rw [h1]; exact hlen)
      (by rw [h1]; exact hflen) (by rw [h1])
    rw [h2, h1]
    simp

/-- C3 amended, witnessed on the concrete mid-recording state: two stops
enqueue the same one-sample utterance twice. -/
theorem claim3_amended_witness :
    (stopCapture (stopCapture captureC3)).audioQueue.items
        = captureC3.audioQueue.items
            ++ [captureC3.seg.audioBuffer.flatten,
                captureC3.seg.audioBuffer.flatten] :=
  (claim3_amended captureC3).2 rfl rfl (by simp [captureC3])
    (by simp [captureC3])

/-! ### Claim C5 — flush-on-stop -/

/-- C5: stopping while Recording with a non-empty buffer pushes exactly the
flattened buffer onto the handoff queue as one new item, with no minimum-
duration or hysteresis condition consulted (the statement imposes no constraint
on durations or timestamps), and leaves the segmentation state untouched. -/
theorem claim5_flush_on_stop (c : Capture) (hrec : c.seg.isRecording = true)
    (hbuf : c.seg.audioBuffer ≠ []) (hflat : c.seg.audioBuffer.flatten ≠ [])
    (hmax : c.audioQueue.maxsize = 0) :
    (stopCapture c).audioQueue.items
      = c.audioQueue.items ++ [c.seg.audioBuffer.flatten] ∧
    (stopCapture c).seg = c.seg := by
  have h1 := stopCapture_flush c hrec (List.length_pos.mpr hbuf)
    (List.length_pos.mpr hflat) hmax
  rw [h1]
  exact ⟨rfl, rfl⟩

/-- A capture session stopped mid-recording with 500 ms buffered at 16 kHz-like
proportions: two 250 ms blocks, no trailing silence yet. -/
def captureC5 : Capture :=
  { isCapturing := true,
    seg := { isRecording := true, audioBuffer := [[1/10, 1/5], [3/10, 2/5]],
             bufferStartTime := some 0, lastVoiceTime := some (1/4),
             silenceStartTime := none },
    audioQueue := audioQueueInit }

/-- C5 witnessed on a concrete mid-recording state. -/
theorem claim5_flush_on_stop_witness :
    (stopCapture captureC5).audioQueue.items
      = captureC5.audioQueue.items ++ [captureC5.seg.audioBuffer.flatten] ∧
    (stopCapture captureC5).seg = captureC5.seg :=
  claim5_flush_on_stop captureC5 rfl (by simp [captureC5])
    (by simp [captureC5]) rfl

/-! ### Claim C4 — 0.3 s minimum utterance duration -/

/-- C4: every utterance the per-block segmenter emits (the flush-on-stop path
is a different function, `stopCapture`) has flattened sample count divided by
the sample rate strictly greater than `0.3`; shorter spans are never
emitted. -/
theorem claim4_min_duration (sampleRate : ℚ) (s : SegState)
    (inp : CallbackInput) (s2 : SegState) (u : List ℚ)
    (h : callbackStep sampleRate s inp = (s2, some u)) :
    3 / 10 < (u.length : ℚ) / sampleRate := by
  simp only [callbackStep] at h
  split at h
  · simp at h
  · split at h
    · simp at h
    · split at h
      · split at h
        · split at h
          · rename_i hdur
            have hu : some u = some s.audioBuffer.flatten :=
              ((Prod.mk.injEq _ _ _ _).mp h.symm).2
            rw [Option.some.inj hu]
            exact hdur
          · simp at h
        · simp at h
      · simp at h

/-- A mid-recording state with seven buffered samples and a running
trailing-silence window. -/
def segC4 : SegState :=
  { isRecording := true,
    audioBuffer := [[1/20], [1/20], [1/20], [1/20], [1/20], [1/20], [1/20]],
    bufferStartTime := some 0, lastVoiceTime := some 0,
    silenceStartTime := some (1/4) }

/-- C4 witnessed: at 20 Hz, a silence block 1.05 s into the trailing-silence
window drains the seven-sample buffer (0.35 s) and emits it. -/
theorem claim4_min_duration_witness :
    callbackStep 20 segC4 (silenceBlockB (13/10))
        = ({ isRecording := false,
             audioBuffer := [], bufferStartTime := some 0,
             lastVoiceTime := some 0, silenceStartTime := none },
           some [1/20, 1/20, 1/20, 1/20, 1/20, 1/20, 1/20]) ∧
    3 / 10 < (([1/20, 1/20, 1/20, 1/20, 1/20, 1/20, 1/20] : List ℚ).length : ℚ) / 20 :=
  ⟨by norm_num [callbackStep, toMono, meanSq, voiceDetected, CallbackInput.size,
      segC4, silenceBlockB, VOICE_THRESHOLD],
   claim4_min_duration 20 segC4 (silenceBlockB (13/10))
     { isRecording := false, audioBuffer := [], bufferStartTime := some 0,
       lastVoiceTime := some 0, silenceStartTime := none }
     [1/20, 1/20, 1/20, 1/20, 1/20, 1/20, 1/20]
     (by norm_num [callbackStep, toMono, meanSq, voiceDetected, CallbackInput.size,
       segC4, silenceBlockB, VOICE_THRESHOLD])⟩

/-! ### Claim C7 — emitted sample count equals the appended blocks -/

/-- C7: an emitted utterance is exactly the flattening of the buffered blocks,
so its sample count is the sum of the sample counts of every block appended
since entering Recording (trailing-silence blocks included, the triggering
block excluded); and the buffer only ever evolves by staying unchanged,
appending the current mono block, restarting from the current block, or being
drained — never dropping or duplicating samples mid-utterance. -/
theorem claim7_no_sample_loss (sampleRate : ℚ) (s : SegState)
    (inp : CallbackInput) :
    (∀ u, (callbackStep sampleRate s inp).2 = some u →
        u = s.audioBuffer.flatten ∧
        u.length = (s.audioBuffer.map List.length).sum) ∧
    ((callbackStep sampleRate s inp).1.audioBuffer = s.audioBuffer ∨
     (callbackStep sampleRate s inp).1.audioBuffer
        = s.audioBuffer ++ [toMono inp] ∨
     (callbackStep sampleRate s inp).1.audioBuffer = [toMono inp] ∨
     (callbackStep sampleRate s inp).1.audioBuffer = []) := by
  simp only [callbackStep]
  split
  · exact ⟨fun u hu => by simp at hu, Or.inl rfl⟩
  · split
    · constructor
      · intro u hu; simp at hu
      · split
        · right; left; rfl
        · right; right; left; simp
    · split
      · split
        · constructor
          · intro u hu
            split at hu
            · refine ⟨(Option.some.inj hu).symm, ?_⟩
              rw [(Option.some.inj hu).symm, List.length_flatten]
            · simp at hu
          · right; right; right; rfl
        · exact ⟨fun u hu => by simp at hu, Or.inr (Or.inl rfl)⟩
      · exact ⟨fun u hu => by simp at hu, Or.inl rfl⟩

/-- C7 witnessed on a concrete emission: the emitted utterance is the
flattened buffer and its length is the summed block lengths. -/
theorem claim7_no_sample_loss_witness :
    [(1:ℚ)/20, 1/20, 1/20, 1/20, 1/20, 1/20, 1/20]
        = segC4.audioBuffer.flatten ∧
    ([(1:ℚ)/20, 1/20, 1/20, 1/20, 1/20, 1/20, 1/20] : List ℚ).length
        = (segC4.audioBuffer.map List.length).sum :=
  (claim7_no_sample_loss 20 segC4 (silenceBlockB (13/10))).1
    [(1:ℚ)/20, 1/20, 1/20, 1/20, 1/20, 1/20, 1/20]
    (by norm_num [callbackStep, toMono, meanSq, voiceDetected,
      CallbackInput.size, segC4, silenceBlockB, VOICE_THRESHOLD])

/-! ### Claim C9 — per-step state invariants -/

theorem callbackStep_speech_silenceStart (sampleRate : ℚ) (s : SegState)
    (inp : CallbackInput) (hsz : ¬ inp.size = 0)
    (hv : voiceDetected (toMono inp) = true) :
    (callbackStep sampleRate s inp).1.silenceStartTime = none := by
  simp only [callbackStep]
  rw [if_neg hsz, if_pos hv]

/-- C9: every per-block step preserves the segmenter invariant (a non-empty
buffer and a set `silence_start_time` occur only while recording); a
zero-length block is a no-op; a silence block arriving while Idle leaves the
state unchanged; and after processing a non-empty block, `silence_start_time`
can be set only if that block was classified silence. -/
theorem claim9_invariant (sampleRate : ℚ) (s : SegState)
    (inp : CallbackInput) :
    (SegInv s → SegInv (callbackStep sampleRate s inp).1) ∧
    (inp.size = 0 → callbackStep sampleRate s inp = (s, none)) ∧
    (s.isRecording = false → voiceDetected (toMono inp) = false →
        callbackStep sampleRate s inp = (s, none)) ∧
    (0 < inp.size →
        (callbackStep sampleRate s inp).1.silenceStartTime ≠ none →
        voiceDetected (toMono inp) = false) := by
  refine ⟨?_, callbackStep_size_zero sampleRate s inp,
    fun hr hv => callbackStep_idle_silence sampleRate s inp hv hr, ?_⟩
  · intro hInv
    simp only [callbackStep]
    split
    · exact hInv
    · split
      · constructor
        · intro hrec
          split at hrec
          · rename_i hsrec
            rw [hsrec] at hrec
            cases hrec
          · cases hrec
        · intro _
          split
          · rename_i hsrec; exact hsrec
          · rfl
      · split
        · split
          · exact ⟨fun _ => rfl, fun hss => absurd rfl hss⟩
          · rename_i hsrec _
            exact ⟨fun hrec => absurd (hrec ▸ hsrec) (by simp),
                   fun _ => hsrec⟩
        · exact hInv
  · intro hsz hss
    cases hv : voiceDetected (toMono inp) with
    | false => rfl
    | true =>
        exact absurd
          (callbackStep_speech_silenceStart sampleRate s inp
            (Nat.pos_iff_ne_zero.mp hsz) hv) hss

/-- C9 witnessed: the invariant holds after a concrete speech step from the
initial state, and a concrete idle silence block is a no-op. -/
theorem claim9_invariant_witness :
    SegInv (callbackStep 20 initState speechBlockB).1 ∧
    callbackStep 20 initState (silenceBlockB 0) = (initState, none) :=
  ⟨(claim9_invariant 20 initState speechBlockB).1
      ⟨fun _ => rfl, fun hss => absurd rfl hss⟩,
   (claim9_invariant 20 initState (silenceBlockB 0)).2.2.1 rfl
     (by norm_num [voiceDetected, VOICE_THRESHOLD, meanSq, toMono, silenceBlockB])⟩

/-! ### Claim C2 — spec Scenario B -/

/-- C2 counterexample: 200 ms of RMS-0.05 speech followed by pure silence DOES
produce an utterance.  At a 5 Hz sample rate (one-sample 200 ms blocks), the
single speech block plus six retained trailing-silence blocks are drained once
the trailing silence exceeds one second, the buffered duration is 7/5 s > 0.3 s
— the minimum-duration check is applied to the whole buffer, trailing silence
included — and the utterance is pushed. -/
theorem claim2_counterexample :
    (runCapture 5 (initState, audioQueueInit) scenarioBInput).2.items
        = [[1/20, 0, 0, 0, 0, 0, 0]] ∧
    (runCapture 5 (initState, audioQueueInit) scenarioBInput).2.items ≠ [] := by
  have h : runCapture 5 (initState, audioQueueInit) scenarioBInput
      = ({ isRecording := false, audioBuffer := [], bufferStartTime := some 0,
           lastVoiceTime := some 0, silenceStartTime := none },
         { maxsize := 0, items := [[1/20, 0, 0, 0, 0, 0, 0]] }) := by
    norm_num [runCapture, callbackFull, callbackStep, toMono, meanSq,
      voiceDetected, CallbackInput.size, initState, audioQueueInit,
      putNowaitOrReplace, PyQueue.full, VOICE_THRESHOLD, scenarioBInput,
      speechBlockB, silenceBlockB, List.foldl]
  rw [h]
  exact ⟨rfl, by simp⟩

/-- C2 amended: for 200 ms of RMS-0.05 speech followed by silence forever,
the segmenter emits exactly one utterance, however long the silence tail —
the drain fires once trailing silence exceeds 1.0 s, and the 0.3 s minimum
does not suppress it because it is evaluated on the total buffered duration
including the retained trailing silence (1.4 s here), not on the 200 ms of
speech alone; all further silence while Idle is a no-op. -/
theorem claim2_amended (n : Nat) :
    ((runCapture 5 (initState, audioQueueInit)
        (scenarioBInput ++ silenceTail n)).2.items).length = 1 := by
  have hcore : runCapture 5 (initState, audioQueueInit) scenarioBInput
      = ({ isRecording := false, audioBuffer := [], bufferStartTime := some 0,
           lastVoiceTime := some 0, silenceStartTime := none },
         { maxsize := 0, items := [[1/20, 0, 0, 0, 0, 0, 0]] }) := by
    norm_num [runCapture, callbackFull, callbackStep, toMono, meanSq,
      voiceDetected, CallbackInput.size, initState, audioQueueInit,
      putNowaitOrReplace, PyQueue.full, VOICE_THRESHOLD, scenarioBInput,
      speechBlockB, silenceBlockB, List.foldl]
  have hsil : ∀ inp ∈ silenceTail n, voiceDetected (toMono inp) = false := by
    intro inp hinp
    simp only [silenceTail, List.mem_map, List.mem_range] at hinp
    obtain ⟨j, _, rfl⟩ := hinp
    norm_num [voiceDetected, VOICE_THRESHOLD, meanSq, toMono, silenceBlockB]
  have hsplit : runCapture 5 (initState, audioQueueInit)
        (scenarioBInput ++ silenceTail n)
      = runCapture 5 (runCapture 5 (initState, audioQueueInit) scenarioBInput)
          (silenceTail n) := by
    unfold runCapture
    rw [List.foldl_append]
  rw [hsplit, hcore,
      runCapture_silence_idle 5 (silenceTail n) _ rfl hsil]
  rfl

/-! ### Claim C6 — RMS energy classifier -/

/-- C6: the classifier first mixes a multi-channel block to mono by averaging
the channels, then compares the RMS `sqrt(mean(sample²))` of the mono block
against the fixed 0.02 threshold with a strict inequality — a block whose RMS
equals the threshold exactly is classified as silence. -/
theorem claim6_classifier (inp : CallbackInput) :
    (voiceDetected (toMono inp) = true ↔
        (0.02 : ℝ) < Real.sqrt ((meanSq (toMono inp) : ℚ) : ℝ)) ∧
    (Real.sqrt ((meanSq (toMono inp) : ℚ) : ℝ) = 0.02 →
        voiceDetected (toMono inp) = false) ∧
    (1 < inp.nChannels →
        toMono inp = inp.data.map (fun frame => frame.sum / (inp.nChannels : ℚ))) := by
  refine ⟨voiceDetected_iff_rms (toMono inp), ?_, ?_⟩
  · intro heq
    cases hb : voiceDetected (toMono inp) with
    | false => rfl
    | true =>
        have := (voiceDetected_iff_rms (toMono inp)).mp hb
        rw [heq] at this
        exact absurd this (lt_irrefl _)
  · intro h
    unfold toMono
    rw [if_pos h]

/-- A one-sample block whose RMS is exactly the 0.02 threshold. -/
def inpC6 : CallbackInput := { data := [[1/50]], nChannels := 1, time := 0 }

/-- C6 witnessed at the tie: a block of RMS exactly 0.02 is silence. -/
theorem claim6_classifier_witness :
    voiceDetected (toMono inpC6) = false :=
  (claim6_classifier inpC6).2.1 (by
    have hm : meanSq (toMono inpC6) = 1/2500 := by
      norm_num [toMono, meanSq, inpC6]
    rw [hm]
    have hc : (((1 : ℚ)/2500 : ℚ) : ℝ) = (0.02 : ℝ) ^ 2 := by
      push_cast; norm_num
    rw [hc, Real.sqrt_sq (by norm_num)])

/-! ### Claim C8 — device resolution priority -/

/-- C8: `find_audio_device` implements exactly the spec's five-step priority
(requested id if valid with input → first monitor/loopback/virtual/alsa name
with input → OS default input → first input-capable device → failure),
provided the OS-reported default index is in range (an out-of-range default
would raise inside the logging lookup and abort resolution instead). -/
theorem claim8_device_priority (deviceId : Option ℤ) (defaultInput : Option Nat)
    (devices : List DeviceInfo)
    (hdef : ∀ d, defaultInput = some d → d < devices.length) :
    findAudioDevice deviceId defaultInput devices
      = specResolve deviceId defaultInput devices := by
  unfold findAudioDevice specResolve
  cases hreq : resolveRequested deviceId devices with
  | some i => rfl
  | none =>
      cases hmon : findMonitorFrom 0 devices with
      | some i => rfl
      | none =>
          cases defaultInput with
          | none => rfl
          | some d =>
              show (if d < devices.length then some d else none) = some d
              exact if_pos (hdef d rfl)

/-- The spec's Scenario E device table: the requested id 0 is an output-only
device, index 2 is an input-capable monitor device, there is an OS default. -/
def devicesE : List DeviceInfo :=
  [⟨"Speakers Output".toList, 0⟩,
   ⟨"HDMI Output".toList, 0⟩,
   ⟨"Monitor of Built-in Audio".toList, 2⟩,
   ⟨"Mic".toList, 1⟩]

/-- C8 witnessed on the Scenario E table with a valid default index. -/
theorem claim8_device_priority_witness :
    findAudioDevice (some 0) (some 3) devicesE
      = specResolve (some 0) (some 3) devicesE :=
  claim8_device_priority (some 0) (some 3) devicesE
    (fun d hd => by
      obtain rfl : (3 : Nat) = d := Option.some.inj hd
      simp [devicesE])

/-! ### Claim C10 — consumer-side peak normalization -/

/-- C10: before an utterance reaches the transcription collaborator it is
peak-normalized — when any sample is non-zero every sample is divided by the
maximum absolute sample value and the resulting peak magnitude is exactly 1 —
while an all-zero utterance is forwarded unscaled (the `max > 0` guard skips
the division, keeping the operation total). -/
theorem claim10_normalization (audioData : List ℚ) (hne : audioData ≠ []) :
    ((∃ x ∈ audioData, x ≠ 0) →
        processAudioChunkImmediate true audioData
          = some (audioData.map (fun x => x / peak audioData)) ∧
        peak (audioData.map (fun x => x / peak audioData)) = 1) ∧
    ((∀ x ∈ audioData, x = 0) →
        processAudioChunkImmediate true audioData = some audioData) := by
  have hlen : ¬ (true = false ∨ audioData.length = 0) := by
    simp [List.length_eq_zero, hne]
  constructor
  · rintro ⟨x, hx, hx0⟩
    have hpos : 0 < peak audioData := peak_pos audioData x hx hx0
    constructor
    · unfold processAudioChunkImmediate
      rw [if_neg hlen, if_pos hpos]
    · rw [peak_map_div audioData (peak audioData) hpos]
      exact div_self (ne_of_gt hpos)
  · intro hz
    have h0 : peak audioData = 0 := peak_eq_zero_of_all_zero audioData hz
    unfold processAudioChunkImmediate
    rw [if_neg hlen, h0, if_neg (lt_irrefl 0)]

/-- C10 witnessed on a concrete two-sample chunk with peak 2. -/
theorem claim10_normalization_witness :
    processAudioChunkImmediate true [(1:ℚ)/2, -2]
        = some ([(1:ℚ)/2, -2].map (fun x => x / peak [(1:ℚ)/2, -2])) ∧
    peak ([(1:ℚ)/2, -2].map (fun x => x / peak [(1:ℚ)/2, -2])) = 1 :=
  (claim10_normalization [(1:ℚ)/2, -2] (by simp)).1
    ⟨-2, by simp, by norm_num⟩

end MeetingAssistant
